import Mathlib

/-!
Shallow embedding of the Barcode-Scanner-API service (src/app.py).

The service exposes one handler, `fetch_from_gemini`, which builds a prompt,
calls the Gemini generation service with a configuration (temperature 0.5,
web-search tool iff `use_search`), and post-processes the reply:
empty-text check, first-brace/last-brace span extraction, `json.loads`,
best-effort grounding-source collection (any error degrades to `[]`),
removal of the `visualDescription` key and attachment of the `sources` key.

JSON values are modelled by the inductive `Json`; `json.loads` is modelled by
a fuel-indexed recursive-descent parser over `List Char` mirroring the
behaviour of Python's `json` module (surrounding whitespace allowed, strict
rejection of raw control characters in strings, `NaN`/`Infinity` constants,
duplicate object keys collapsed dict-style with the last value winning).
Numeric literals are kept as their lexemes: no claim depends on numeric
value, and this avoids committing to a float semantics.  Python dicts are
modelled as association lists with unique keys maintained by `dictInsert`.
-/

/-- A parsed JSON value, as produced by Python's `json.loads`.  Objects keep
insertion order, as Python dicts do. -/
inductive Json where
  | null
  | bool (b : Bool)
  | num (lit : String)
  | str (s : String)
  | arr (elts : List Json)
  | obj (kvs : List (String × Json))

/-- Python dict lookup `d[k]` (as an `Option`): the first binding of `k`. -/
def dictLookup (k : String) : List (String × Json) → Option Json
  | [] => none
  | (a, v) :: t => if a = k then some v else dictLookup k t

/-- Python dict assignment `d[k] = v`: replace the value at the first binding
of `k`, keeping its position; append a new binding when `k` is absent. -/
def dictInsert (k : String) (v : Json) : List (String × Json) → List (String × Json)
  | [] => [(k, v)]
  | (a, b) :: t => if a = k then (a, v) :: t else (a, b) :: dictInsert k v t

/-- Python `del d[k]` (on a key known present, as guarded in the source by
`if k in d`): drop every binding of `k`. -/
def dictErase (k : String) : List (String × Json) → List (String × Json)
  | [] => []
  | (a, v) :: t => if a = k then dictErase k t else (a, v) :: dictErase k t

/-- Whether the dict has a binding of `k` (Python `k in d`). -/
def dictHasKey (k : String) (d : List (String × Json)) : Bool :=
  (dictLookup k d).isSome

/-- JSON whitespace, as skipped by Python's `json` scanner. -/
def skipWs (l : List Char) : List Char :=
  l.dropWhile (fun c => c == ' ' || c == '\t' || c == '\n' || c == '\r')

/-- Value of a hexadecimal digit, for `\u` escapes. -/
def hexVal (c : Char) : Option Nat :=
  if '0' ≤ c ∧ c ≤ '9' then some (c.toNat - 48)
  else if 'a' ≤ c ∧ c ≤ 'f' then some (c.toNat - 87)
  else if 'A' ≤ c ∧ c ≤ 'F' then some (c.toNat - 55)
  else none

/-- Translation of a single-character string escape (JSON `\c`). -/
def escChar (c : Char) : Option Char :=
  if c = '"' then some '"'
  else if c = '\\' then some '\\'
  else if c = '/' then some '/'
  else if c = 'b' then some (Char.ofNat 8)
  else if c = 'f' then some (Char.ofNat 12)
  else if c = 'n' then some (Char.ofNat 10)
  else if c = 'r' then some (Char.ofNat 13)
  else if c = 't' then some (Char.ofNat 9)
  else none

/-- Body of a JSON string literal, after the opening quote: the decoded
characters and the input after the closing quote.  Mirrors Python's strict
scanner: raw control characters (below U+0020) are rejected, the eight
single-character escapes and `\uXXXX` are decoded.  (Surrogate-pair
combination is not modelled; no claim involves `\u` escapes.) -/
def parseStringBody : List Char → Option (List Char × List Char)
  | [] => none
  | c :: rest =>
    if c = '"' then some ([], rest)
    else if c = '\\' then
      match rest with
      | [] => none
      | e :: rest2 =>
        if e = 'u' then
          match rest2 with
          | h1 :: h2 :: h3 :: h4 :: rest3 =>
            match hexVal h1, hexVal h2, hexVal h3, hexVal h4 with
            | some a, some b, some c2, some d =>
              match parseStringBody rest3 with
              | some (s, r) => some (Char.ofNat (((a * 16 + b) * 16 + c2) * 16 + d) :: s, r)
              | none => none
            | _, _, _, _ => none
          | _ => none
        else
          match escChar e with
          | some ce =>
            match parseStringBody rest2 with
            | some (s, r) => some (ce :: s, r)
            | none => none
          | none => none
    else if c.toNat < 32 then none
    else
      match parseStringBody rest with
      | some (s, r) => some (c :: s, r)
      | none => none

/-- Integer part of a JSON number: `0`, or a nonzero digit followed by
digits (the `(0|[1-9]\d*)` group of Python's `NUMBER_RE`). -/
def lexInt : List Char → Option (List Char × List Char)
  | [] => none
  | c :: r =>
    if c = '0' then some ([c], r)
    else if c.isDigit then some (c :: r.takeWhile Char.isDigit, r.dropWhile Char.isDigit)
    else none

/-- Optional fraction part `(\.\d+)?`: consumed only when a digit follows the
dot, otherwise nothing is consumed. -/
def lexFrac (l : List Char) : List Char × List Char :=
  match l with
  | '.' :: r =>
    if (r.takeWhile Char.isDigit).isEmpty then ([], l)
    else ('.' :: r.takeWhile Char.isDigit, r.dropWhile Char.isDigit)
  | _ => ([], l)

/-- Optional exponent part `([eE][+-]?\d+)?`: consumed only when digits
follow, otherwise nothing is consumed. -/
def lexExp (l : List Char) : List Char × List Char :=
  match l with
  | c :: r =>
    if c = 'e' ∨ c = 'E' then
      match r with
      | s :: r2 =>
        if s = '+' ∨ s = '-' then
          if (r2.takeWhile Char.isDigit).isEmpty then ([], l)
          else (c :: s :: r2.takeWhile Char.isDigit, r2.dropWhile Char.isDigit)
        else
          if (r.takeWhile Char.isDigit).isEmpty then ([], l)
          else (c :: r.takeWhile Char.isDigit, r.dropWhile Char.isDigit)
      | [] => ([], l)
    else ([], l)
  | [] => ([], l)

/-- A numeric token (or the `-Infinity` constant accepted by Python's
scanner), kept as its lexeme. -/
def parseNumberToken (l : List Char) : Option (Json × List Char) :=
  match l with
  | '-' :: 'I' :: 'n' :: 'f' :: 'i' :: 'n' :: 'i' :: 't' :: 'y' :: r =>
    some (.num "-Infinity", r)
  | '-' :: r =>
    match lexInt r with
    | none => none
    | some (ip, r1) =>
      match lexFrac r1 with
      | (fp, r2) =>
        match lexExp r2 with
        | (ep, r3) => some (.num (String.mk ('-' :: (ip ++ fp ++ ep))), r3)
  | _ =>
    match lexInt l with
    | none => none
    | some (ip, r1) =>
      match lexFrac r1 with
      | (fp, r2) =>
        match lexExp r2 with
        | (ep, r3) => some (.num (String.mk (ip ++ fp ++ ep)), r3)

mutual

/-- One JSON value at the head of the input (no leading whitespace), with the
remaining input.  Fuel-indexed to make the mutual recursion structural; every
mutual call strictly decreases the fuel, and `json_loads` supplies more fuel
than any input can consume. -/
def parseValue : Nat → List Char → Option (Json × List Char)
  | 0, _ => none
  | Nat.succ _, [] => none
  | Nat.succ fuel, c :: rest =>
    if c = '"' then
      match parseStringBody rest with
      | some (s, r) => some (.str (String.mk s), r)
      | none => none
    else if c = '{' then parseObjectBody fuel (skipWs rest)
    else if c = '[' then parseArrayBody fuel (skipWs rest)
    else if c = 't' then
      match rest with
      | 'r' :: 'u' :: 'e' :: r => some (.bool true, r)
      | _ => none
    else if c = 'f' then
      match rest with
      | 'a' :: 'l' :: 's' :: 'e' :: r => some (.bool false, r)
      | _ => none
    else if c = 'n' then
      match rest with
      | 'u' :: 'l' :: 'l' :: r => some (.null, r)
      | _ => none
    else if c = 'N' then
      match rest with
      | 'a' :: 'N' :: r => some (.num "NaN", r)
      | _ => none
    else if c = 'I' then
      match rest with
      | 'n' :: 'f' :: 'i' :: 'n' :: 'i' :: 't' :: 'y' :: r => some (.num "Infinity", r)
      | _ => none
    else parseNumberToken (c :: rest)

/-- Object body after the opening brace (whitespace already skipped). -/
def parseObjectBody : Nat → List Char → Option (Json × List Char)
  | 0, _ => none
  | Nat.succ fuel, input =>
    match input with
    | '}' :: r => some (.obj [], r)
    | _ => parseMembers fuel [] input

/-- Members of a non-empty object, accumulating Python-dict style (a repeated
key keeps its first position and takes the last value). -/
def parseMembers : Nat → List (String × Json) → List Char → Option (Json × List Char)
  | 0, _, _ => none
  | Nat.succ fuel, acc, input =>
    match input with
    | '"' :: r =>
      match parseStringBody r with
      | none => none
      | some (key, r1) =>
        match skipWs r1 with
        | ':' :: r2 =>
          match parseValue fuel (skipWs r2) with
          | none => none
          | some (v, r3) =>
            match skipWs r3 with
            | ',' :: r4 => parseMembers fuel (dictInsert (String.mk key) v acc) (skipWs r4)
            | '}' :: r4 => some (.obj (dictInsert (String.mk key) v acc), r4)
            | _ => none
        | _ => none
    | _ => none

/-- Array body after the opening bracket (whitespace already skipped). -/
def parseArrayBody : Nat → List Char → Option (Json × List Char)
  | 0, _ => none
  | Nat.succ fuel, input =>
    match input with
    | ']' :: r => some (.arr [], r)
    | _ => parseElements fuel [] input

/-- Elements of a non-empty array, in order. -/
def parseElements : Nat → List Json → List Char → Option (Json × List Char)
  | 0, _, _ => none
  | Nat.succ fuel, acc, input =>
    match parseValue fuel input with
    | none => none
    | some (v, r) =>
      match skipWs r with
      | ',' :: r2 => parseElements fuel (acc ++ [v]) (skipWs r2)
      | ']' :: r2 => some (.arr (acc ++ [v]), r2)
      | _ => none

end

/-- Python's `json.loads` on the character sequence `s`: one JSON value,
optionally surrounded by whitespace, nothing after it.  `none` models a
raised `json.JSONDecodeError`. -/
def json_loads (s : List Char) : Option Json :=
  match parseValue (4 * s.length + 4) (skipWs s) with
  | some (v, rest) => if (skipWs rest).isEmpty then some v else none
  | none => none

/-- Python `str.find(c)`: index of the first occurrence (`none` for `-1`). -/
def findFirst (c : Char) : List Char → Option Nat
  | [] => none
  | a :: t => if a = c then some 0 else (findFirst c t).map (· + 1)

/-- Python `str.rfind(c)`: index of the last occurrence (`none` for `-1`). -/
def findLast (c : Char) : List Char → Option Nat
  | [] => none
  | a :: t =>
    match findLast c t with
    | some i => some (i + 1)
    | none => if a = c then some 0 else none

/-- Lines 91-94 of app.py: the span `raw_text[start:end+1]` from the first
`{` to the last `}`; `none` when either is absent or the last `}` precedes
the first `{`. -/
def extractSpan (raw : List Char) : Option (List Char) :=
  match findFirst '{' raw, findLast '}' raw with
  | some s, some e => if e < s then none else some ((raw.drop s).take (e + 1 - s))
  | _, _ => none

/-- The brace-span extraction followed by `json.loads` (lines 91-96). -/
def extractJson (raw : List Char) : Option Json :=
  (extractSpan raw).bind json_loads

/-- Python truthiness of an optional string (`if not raw_text`): `none` and
the empty string are falsy. -/
def pyTruthy (o : Option String) : Bool :=
  match o with
  | none => false
  | some s => !s.isEmpty

/-- The web citation of a grounding chunk (`google.genai` type
`GroundingChunkWeb`): both fields are optional strings. -/
structure GroundingChunkWeb where
  uri : Option String
  title : Option String
deriving DecidableEq

/-- A grounding chunk (`google.genai` type `GroundingChunk`): the `web`
attribute exists on every chunk (it is a pydantic field, so Python's
`hasattr(chunk, "web")` is always true) but may be `None`. -/
structure GroundingChunk where
  web : Option GroundingChunkWeb
deriving DecidableEq

/-- Grounding metadata of a candidate: the chunk list may be `None`. -/
structure GroundingMetadata where
  grounding_chunks : Option (List GroundingChunk)
deriving DecidableEq

/-- A reply candidate; only its grounding metadata is read by the handler. -/
structure Candidate where
  grounding_metadata : Option GroundingMetadata
deriving DecidableEq

/-- The parts of a `generate_content` response the handler reads:
`response.text` (may be `None` or empty) and `response.candidates`. -/
structure GenResponse where
  text : Option String
  candidates : List Candidate
deriving DecidableEq

/-- One collected source entry, `{"uri": ..., "title": ...}` (line 104). -/
structure GroundingSource where
  uri : String
  title : String
deriving DecidableEq

/-- The loop body of lines 102-104 over the whole chunk list: `none` models
an exception escaping the loop (reading `chunk.web.uri` when `chunk.web` is
`None` raises `AttributeError`); otherwise the entries whose web citation has
a truthy (present, non-empty) uri and title, in chunk order. -/
def collectChunks : List GroundingChunk → Option (List GroundingSource)
  | [] => some []
  | ch :: rest =>
    match ch.web with
    | none => none
    | some w =>
      match collectChunks rest with
      | none => none
      | some tl =>
        if pyTruthy w.uri && pyTruthy w.title then
          some ({ uri := w.uri.getD "", title := w.title.getD "" } :: tl)
        else some tl

/-- Lines 99-106 of app.py: the `sources` list.  Every failure path of the
`try` block (no candidate, absent grounding metadata, absent chunk list, or
an exception while reading a chunk) is swallowed and yields `[]`. -/
def getSources (r : GenResponse) : List GroundingSource :=
  match r.candidates with
  | [] => []
  | c :: _ =>
    match c.grounding_metadata with
    | none => []
    | some gm =>
      match gm.grounding_chunks with
      | none => []
      | some chunks => (collectChunks chunks).getD []

/-- Whether the grounding-metadata read of lines 100-104 degrades: the reply
has no candidate, the metadata or its chunk list is absent, or reading some
chunk raises.  These are exactly the paths on which the `except` clause of
line 105 (or the absence of chunks) leaves `sources` empty. -/
def groundingDegraded (r : GenResponse) : Bool :=
  match r.candidates with
  | [] => true
  | c :: _ =>
    match c.grounding_metadata with
    | none => true
    | some gm =>
      match gm.grounding_chunks with
      | none => true
      | some chunks => (collectChunks chunks).isNone

/-- The `sources` list as JSON, as it appears in the returned record. -/
def sourcesJson (l : List GroundingSource) : Json :=
  .arr (l.map fun s => .obj [("uri", .str s.uri), ("title", .str s.title)])

/-- A tool attached to the generation call; the source only ever attaches
`Tool(google_search=GoogleSearch())`. -/
inductive GenAiTool where
  | googleSearch
deriving DecidableEq

/-- The `GenerateContentConfig` fields the source sets: `tools` (absent when
not passed) and `temperature`.  The temperature is an exact decimal literal
in the source, modelled as a rational. -/
structure GenerateContentConfig where
  tools : Option (List GenAiTool)
  temperature : Rat
deriving DecidableEq

/-- Lines 66-74 of app.py: the configuration built for the call.  With
`use_search` a web-search tool is attached; otherwise `tools` is omitted. -/
def makeConfig (use_search : Bool) : GenerateContentConfig :=
  if use_search then { tools := some [.googleSearch], temperature := (0.5 : Rat) }
  else { tools := none, temperature := (0.5 : Rat) }

/-- Whether a configuration carries the web-search tool capability. -/
def hasSearchTool (c : GenerateContentConfig) : Bool :=
  match c.tools with
  | some ts => ts.any (fun t => t = .googleSearch)
  | none => false

/-- Python `str(bool)`. -/
def pyBoolStr (b : Bool) : String :=
  if b then "True" else "False"

/-- The detail string of line 84:
`f"Gemini API call failed (use_search=.use_search.): .str(e)."`. -/
def upstreamDetail (use_search : Bool) (e : String) : String :=
  "Gemini API call failed (use_search=" ++ pyBoolStr use_search ++ "): " ++ e

/-- The failure modes of the handler.  The first three are the explicit
`HTTPException(status_code=500, ...)` raises of lines 84, 88 and 94; a
`json.loads` failure on line 96 propagates uncaught and surfaces as an
HTTP 500 (the design names it ClientFormatError); `pyTypeError` stands for
the `TypeError` Python would raise on lines 108-111 were the parsed value
not a dict (unreachable, since the extracted span starts with a brace). -/
inductive ApiError where
  | upstreamCall (detail : String)
  | emptyResponse
  | noJsonFound
  | clientFormat
  | pyTypeError
deriving DecidableEq

/-- The detail string of the HTTP 500 response for each explicit raise. -/
def errorDetail : ApiError → String
  | .upstreamCall d => d
  | .emptyResponse => "Empty response from Gemini API"
  | .noJsonFound => "No valid JSON found in response"
  | .clientFormat => "client format error: JSON span failed to parse"
  | .pyTypeError => "type error: parsed value is not an object"

/-- Lines 42-113 of app.py, `fetch_from_gemini`, with the external call
abstracted as a function `generate` from the configuration actually passed
to either an exception message (`Except.error`) or a response. -/
def fetch_from_gemini (use_search : Bool)
    (generate : GenerateContentConfig → Except String GenResponse) :
    Except ApiError (List (String × Json)) :=
  match generate (makeConfig use_search) with
  | .error e => .error (.upstreamCall (upstreamDetail use_search e))
  | .ok response =>
    if pyTruthy response.text then
      match extractSpan (response.text.getD "").data with
      | none => .error .noJsonFound
      | some span =>
        match json_loads span with
        | none => .error .clientFormat
        | some j =>
          match j with
          | .obj kvs =>
            .ok (dictInsert "sources" (sourcesJson (getSources response))
                  (dictErase "visualDescription" kvs))
          | _ => .error .pyTypeError
    else .error .emptyResponse

/-! ### Dictionary lemmas -/

theorem dictLookup_erase_self (k : String) (d : List (String × Json)) :
    dictLookup k (dictErase k d) = none := by
  induction d with
  | nil => rfl
  | cons p t ih =>
    obtain ⟨a, v⟩ := p
    by_cases h : a = k
    · simp [dictErase, h, ih]
    · simp [dictErase, dictLookup, h, ih]

theorem dictLookup_erase_ne (a k : String) (h : a ≠ k) (d : List (String × Json)) :
    dictLookup a (dictErase k d) = dictLookup a d := by
  induction d with
  | nil => rfl
  | cons p t ih =>
    obtain ⟨b, v⟩ := p
    by_cases hb : b = k
    · subst hb
      simp [dictErase, dictLookup, Ne.symm h, ih]
    · by_cases hba : b = a <;> simp [dictErase, dictLookup, hb, hba, h, ih]

theorem dictLookup_insert_self (k : String) (v : Json) (d : List (String × Json)) :
    dictLookup k (dictInsert k v d) = some v := by
  induction d with
  | nil => simp [dictInsert, dictLookup]
  | cons p t ih =>
    obtain ⟨b, w⟩ := p
    by_cases hb : b = k
    · simp [dictInsert, dictLookup, hb]
    · simp [dictInsert, dictLookup, hb, ih]

theorem dictLookup_insert_ne (a k : String) (v : Json) (h : a ≠ k)
    (d : List (String × Json)) :
    dictLookup a (dictInsert k v d) = dictLookup a d := by
  induction d with
  | nil => simp [dictInsert, dictLookup, Ne.symm h]
  | cons p t ih =>
    obtain ⟨b, w⟩ := p
    by_cases hb : b = k
    · subst hb
      simp [dictInsert, dictLookup, Ne.symm h]
    · by_cases hba : b = a <;> simp [dictInsert, dictLookup, hb, hba, h, ih]

/-! ### Lemmas about `str.find` / `str.rfind` -/

theorem findFirst_append_not_mem (c : Char) (pre l : List Char) (h : c ∉ pre) :
    findFirst c (pre ++ l) = (findFirst c l).map (· + pre.length) := by
  induction pre with
  | nil => cases hf : findFirst c l <;> simp [hf]
  | cons a t ih =>
    have ha : ¬a = c := fun hac => h (hac ▸ List.mem_cons_self a t)
    have ht : c ∉ t := fun hm => h (List.mem_cons_of_mem _ hm)
    cases hf : findFirst c l <;>
      simp [findFirst, ha, ih ht, hf, Nat.add_assoc]

theorem findLast_cons (c a : Char) (t : List Char) :
    findLast c (a :: t) = match findLast c t with
      | some i => some (i + 1)
      | none => if a = c then some 0 else none := rfl

theorem findLast_eq_none (c : Char) (l : List Char) (h : c ∉ l) :
    findLast c l = none := by
  induction l with
  | nil => rfl
  | cons a t ih =>
    have ha : ¬a = c := fun hac => h (hac ▸ List.mem_cons_self a t)
    have ht : c ∉ t := fun hm => h (List.mem_cons_of_mem _ hm)
    simp [findLast, ih ht, ha]

theorem findLast_append_some (c : Char) (l₁ l₂ : List Char) (i : Nat)
    (h : findLast c l₂ = some i) :
    findLast c (l₁ ++ l₂) = some (l₁.length + i) := by
  induction l₁ with
  | nil => simpa using h
  | cons a t ih =>
    rw [List.cons_append, findLast_cons, ih]
    simp only [List.length_cons]
    congr 1
    omega

theorem findLast_append_not_mem (c : Char) (l post : List Char) (h : c ∉ post) :
    findLast c (l ++ post) = findLast c l := by
  induction l with
  | nil => simpa using findLast_eq_none c post h
  | cons a t ih =>
    cases hf : findLast c t <;> simp [findLast, ih, hf]

theorem findLast_of_getLast (c : Char) (l : List Char) (h : l.getLast? = some c) :
    findLast c l = some (l.length - 1) := by
  induction l with
  | nil => simp at h
  | cons a t ih =>
    cases t with
    | nil =>
      simp only [List.getLast?_singleton, Option.some.injEq] at h
      simp [findLast, h]
    | cons b t2 =>
      rw [List.getLast?_cons_cons] at h
      rw [findLast_cons, ih h]
      simp only [List.length_cons]
      congr 1

/-- The heart of C2: when a span beginning with `{` and ending with `}` is
embedded in prose that carries no `{` before it and no `}` after it, the
first-brace/last-brace extraction recovers the span exactly. -/
theorem extractSpan_embed (pre s post : List Char)
    (hpre : '{' ∉ pre) (hpost : '}' ∉ post)
    (hhead : s.head? = some '{') (hlast : s.getLast? = some '}') :
    extractSpan (pre ++ s ++ post) = some s := by
  obtain ⟨s', rfl⟩ : ∃ s', s = '{' :: s' := by
    cases s with
    | nil => simp at hhead
    | cons c s' =>
      simp only [List.head?_cons, Option.some.injEq] at hhead
      exact ⟨s', by rw [hhead]⟩
  have hfirst : findFirst '{' (pre ++ ('{' :: s') ++ post) = some pre.length := by
    rw [List.append_assoc, findFirst_append_not_mem _ _ _ hpre]
    simp [findFirst]
  have hlen : findLast '}' ('{' :: s') = some (('{' :: s').length - 1) :=
    findLast_of_getLast _ _ hlast
  have hend : findLast '}' (pre ++ ('{' :: s') ++ post)
      = some (pre.length + (('{' :: s').length - 1)) := by
    rw [findLast_append_not_mem _ _ _ hpost, findLast_append_some _ _ _ _ hlen]
  have hnlt : ¬pre.length + (('{' :: s').length - 1) < pre.length := by
    simp only [List.length_cons]; omega
  have harith : pre.length + (('{' :: s').length - 1) + 1 - pre.length
      = ('{' :: s').length := by
    simp only [List.length_cons]; omega
  unfold extractSpan
  rw [hfirst, hend]
  show (if pre.length + (('{' :: s').length - 1) < pre.length then none
      else some (((pre ++ '{' :: s' ++ post).drop pre.length).take
        (pre.length + (('{' :: s').length - 1) + 1 - pre.length)))
    = some ('{' :: s')
  rw [if_neg hnlt, harith, List.append_assoc, List.drop_left, List.take_left]


/-! ### Grounding-source lemmas -/

/-- Written from the spec's words (§3 GroundingSource, §8), for comparison
with `getSources` in claim C7: one `{uri, title}` entry per chunk whose web
citation has both fields present and non-empty, in the chunks' original
order; chunks missing either field are excluded. -/
def specSources (chunks : List GroundingChunk) : List GroundingSource :=
  chunks.filterMap fun ch =>
    match ch.web with
    | some w =>
      if pyTruthy w.uri && pyTruthy w.title then
        some { uri := w.uri.getD "", title := w.title.getD "" }
      else none
    | none => none

theorem collectChunks_all_web (chunks : List GroundingChunk)
    (h : ∀ ch ∈ chunks, ch.web ≠ none) :
    collectChunks chunks = some (specSources chunks) := by
  induction chunks with
  | nil => rfl
  | cons ch rest ih =>
    obtain ⟨w, hw⟩ : ∃ w, ch.web = some w := by
      cases hcw : ch.web with
      | none => exact absurd hcw (h ch (List.mem_cons_self ch rest))
      | some w => exact ⟨w, rfl⟩
    have hrest := ih fun c hc => h c (List.mem_cons_of_mem _ hc)
    by_cases ht : pyTruthy w.uri = true ∧ pyTruthy w.title = true <;>
      simp [collectChunks, specSources, List.filterMap_cons, hw, hrest, ht]

theorem collectChunks_none (chunks : List GroundingChunk)
    (h : ∃ ch ∈ chunks, ch.web = none) :
    collectChunks chunks = none := by
  induction chunks with
  | nil => simp at h
  | cons ch rest ih =>
    rcases h with ⟨c, hc, hcw⟩
    rcases List.mem_cons.mp hc with rfl | hmem
    · simp [collectChunks, hcw]
    · have hrec := ih ⟨c, hmem, hcw⟩
      cases hw : ch.web <;> simp [collectChunks, hw, hrec]

theorem getSources_degraded (r : GenResponse) (h : groundingDegraded r = true) :
    getSources r = [] := by
  obtain ⟨t, cands⟩ := r
  cases cands with
  | nil => rfl
  | cons c cs =>
    obtain ⟨mgm⟩ := c
    cases mgm with
    | none => rfl
    | some gm =>
      obtain ⟨mchunks⟩ := gm
      cases mchunks with
      | none => rfl
      | some chunks =>
        have h2 : (collectChunks chunks).isNone = true := h
        rw [Option.isNone_iff_eq_none] at h2
        show (collectChunks chunks).getD [] = []
        rw [h2]
        rfl

theorem fetch_ok_reduce (u : Bool)
    (g : GenerateContentConfig → Except String GenResponse)
    (resp : GenResponse) (kvs : List (String × Json))
    (hcall : g (makeConfig u) = .ok resp)
    (htext : pyTruthy resp.text = true)
    (hjson : extractJson (resp.text.getD "").data = some (.obj kvs)) :
    fetch_from_gemini u g
      = .ok (dictInsert "sources" (sourcesJson (getSources resp))
          (dictErase "visualDescription" kvs)) := by
  obtain ⟨span, hspan, hload⟩ : ∃ span,
      extractSpan (resp.text.getD "").data = some span ∧
      json_loads span = some (.obj kvs) := by
    unfold extractJson at hjson
    cases hs : extractSpan (resp.text.getD "").data with
    | none => rw [hs] at hjson; simp at hjson
    | some sp => rw [hs] at hjson; exact ⟨sp, rfl, by simpa using hjson⟩
  unfold fetch_from_gemini
  rw [hcall]
  simp [htext, hspan, hload]

theorem fetch_ok_shape (u : Bool)
    (g : GenerateContentConfig → Except String GenResponse)
    (d : List (String × Json)) (h : fetch_from_gemini u g = .ok d) :
    ∃ resp kvs,
      d = dictInsert "sources" (sourcesJson (getSources resp))
            (dictErase "visualDescription" kvs) := by
  unfold fetch_from_gemini at h
  cases hg : g (makeConfig u) with
  | error e => rw [hg] at h; simp at h
  | ok resp =>
    rw [hg] at h
    cases htext : pyTruthy resp.text with
    | false => simp [htext] at h
    | true =>
      cases hs : extractSpan (resp.text.getD "").data with
      | none => simp [htext, hs] at h
      | some span =>
        cases hl : json_loads span with
        | none => simp [htext, hs, hl] at h
        | some j =>
          cases j with
          | obj kvs =>
            simp [htext, hs, hl] at h
            exact ⟨resp, kvs, h.symm⟩
          | null => simp [htext, hs, hl] at h
          | bool b => simp [htext, hs, hl] at h
          | num s2 => simp [htext, hs, hl] at h
          | str s2 => simp [htext, hs, hl] at h
          | arr a2 => simp [htext, hs, hl] at h

/-! ### The claims -/

/-- C1: every record the handler returns successfully lacks the
"visualDescription" key, whether or not the parsed reply carried one
(lines 108-109 delete it before the record is returned). -/
theorem fetch_never_returns_visualDescription (u : Bool)
    (g : GenerateContentConfig → Except String GenResponse)
    (d : List (String × Json)) (h : fetch_from_gemini u g = .ok d) :
    dictLookup "visualDescription" d = none := by
  obtain ⟨resp, kvs, rfl⟩ := fetch_ok_shape u g d h
  have hne : ("visualDescription" : String) ≠ "sources" := by decide
  rw [dictLookup_insert_ne _ _ _ hne]
  exact dictLookup_erase_self _ _

theorem fetch_never_returns_visualDescription_witness :
    dictLookup "visualDescription" [("sources", Json.arr [])] = none :=
  fetch_never_returns_visualDescription false
    (fun _ => .ok ⟨some "\x7b\"visualDescription\":\"x\"\x7d", []⟩)
    [("sources", Json.arr [])] rfl

/-- C2: for a reply made of a well-formed JSON object (a span that parses,
starting with `{` and ending with `}`) surrounded by prose carrying no
further braces, extraction followed by parsing returns exactly that object's
parsed content; and on the reply
`Sure! {"productName":"Widget","brand":"Acme"} thanks` the handler returns
that object extended with `"sources": []`. -/
theorem extractJson_recovers_embedded_object (pre s post : List Char) (v : Json)
    (hpre : '{' ∉ pre) (hpost : '}' ∉ post)
    (hhead : s.head? = some '{') (hlast : s.getLast? = some '}')
    (hv : json_loads s = some v) :
    extractJson (pre ++ s ++ post) = some v ∧
      fetch_from_gemini false
        (fun _ => .ok
          ⟨some "Sure! \x7b\"productName\":\"Widget\",\"brand\":\"Acme\"\x7d thanks", []⟩)
        = .ok [("productName", .str "Widget"), ("brand", .str "Acme"),
               ("sources", .arr [])] := by
  refine ⟨?_, rfl⟩
  unfold extractJson
  rw [extractSpan_embed pre s post hpre hpost hhead hlast]
  exact hv

theorem extractJson_recovers_embedded_object_witness :
    extractJson (("Sure! ").data
        ++ ("\x7b\"productName\":\"Widget\",\"brand\":\"Acme\"\x7d").data
        ++ (" thanks").data)
      = some (.obj [("productName", .str "Widget"), ("brand", .str "Acme")]) ∧
      fetch_from_gemini false
        (fun _ => .ok
          ⟨some "Sure! \x7b\"productName\":\"Widget\",\"brand\":\"Acme\"\x7d thanks", []⟩)
        = .ok [("productName", .str "Widget"), ("brand", .str "Acme"),
               ("sources", .arr [])] :=
  extractJson_recovers_embedded_object _ _ _ _
    (by decide) (by decide) (by decide) (by decide) rfl

/-- C3: a non-empty reply with no first `{`, no last `}`, or the last `}`
before the first `{` fails with NoJsonFoundError; the definition takes the
error branch before `json_loads` is ever applied. -/
theorem fetch_noJsonFound_on_missing_braces (u : Bool)
    (g : GenerateContentConfig → Except String GenResponse) (resp : GenResponse)
    (hcall : g (makeConfig u) = .ok resp)
    (htext : pyTruthy resp.text = true)
    (hb : findFirst '{' (resp.text.getD "").data = none ∨
          findLast '}' (resp.text.getD "").data = none ∨
          (∃ i j, findFirst '{' (resp.text.getD "").data = some i ∧
                  findLast '}' (resp.text.getD "").data = some j ∧ j < i)) :
    fetch_from_gemini u g = .error .noJsonFound := by
  have hspan : extractSpan (resp.text.getD "").data = none := by
    rcases hb with h1 | h1 | ⟨i, j, h1, h2, h3⟩
    · cases hl : findLast '}' (resp.text.getD "").data <;>
        simp [extractSpan, h1, hl]
    · cases hf : findFirst '{' (resp.text.getD "").data <;>
        simp [extractSpan, h1, hf]
    · simp [extractSpan, h1, h2, h3]
  unfold fetch_from_gemini
  rw [hcall]
  simp [htext, hspan]

theorem fetch_noJsonFound_on_missing_braces_witness :
    fetch_from_gemini true (fun _ => .ok ⟨some "no json here", []⟩)
      = .error .noJsonFound :=
  fetch_noJsonFound_on_missing_braces true
    (fun _ => .ok ⟨some "no json here", []⟩) ⟨some "no json here", []⟩
    rfl rfl (.inl (by decide))

/-- C4: an absent (`None`) or empty reply text fails with EmptyResponseError;
the truthiness test of line 87 precedes the brace-span extraction. -/
theorem fetch_emptyResponse_on_empty_text (u : Bool)
    (g : GenerateContentConfig → Except String GenResponse) (resp : GenResponse)
    (hcall : g (makeConfig u) = .ok resp)
    (h : resp.text = none ∨ resp.text = some "") :
    fetch_from_gemini u g = .error .emptyResponse := by
  have htext : pyTruthy resp.text = false := by
    rcases h with h | h <;> rw [h] <;> rfl
  unfold fetch_from_gemini
  rw [hcall]
  simp [htext]

theorem fetch_emptyResponse_on_empty_text_witness :
    fetch_from_gemini false (fun _ => .ok ⟨none, []⟩) = .error .emptyResponse :=
  fetch_emptyResponse_on_empty_text false (fun _ => .ok ⟨none, []⟩) ⟨none, []⟩
    rfl (.inl rfl)

/-- C5: when the generation call raises, the handler fails with
UpstreamCallError and the detail string contains `use_search=True` or
`use_search=False` according to the mode in effect for the attempt. -/
theorem fetch_upstreamCall_detail_names_mode (u : Bool) (e : String)
    (g : GenerateContentConfig → Except String GenResponse)
    (hcall : g (makeConfig u) = .error e) :
    fetch_from_gemini u g = .error (.upstreamCall (upstreamDetail u e)) ∧
    ∃ before after : List Char,
      (upstreamDetail u e).data
        = before ++ ("use_search=" ++ pyBoolStr u).data ++ after := by
  constructor
  · unfold fetch_from_gemini
    rw [hcall]
  · refine ⟨("Gemini API call failed (").data, ("): " ++ e).data, ?_⟩
    cases u <;> rfl

theorem fetch_upstreamCall_detail_names_mode_witness :
    fetch_from_gemini true (fun _ => .error "boom")
      = .error (.upstreamCall (upstreamDetail true "boom")) ∧
    ∃ before after : List Char,
      (upstreamDetail true "boom").data
        = before ++ ("use_search=" ++ pyBoolStr true).data ++ after :=
  fetch_upstreamCall_detail_names_mode true "boom" (fun _ => .error "boom") rfl

/-- C6: when the grounding metadata is absent, malformed, or raises while
being read, the request still succeeds and the returned record's "sources"
key is the empty sequence. -/
theorem fetch_degraded_grounding_gives_empty_sources (u : Bool)
    (g : GenerateContentConfig → Except String GenResponse)
    (resp : GenResponse) (kvs : List (String × Json))
    (hcall : g (makeConfig u) = .ok resp)
    (htext : pyTruthy resp.text = true)
    (hjson : extractJson (resp.text.getD "").data = some (.obj kvs))
    (hbad : groundingDegraded resp = true) :
    fetch_from_gemini u g
      = .ok (dictInsert "sources" (Json.arr []) (dictErase "visualDescription" kvs)) ∧
    dictLookup "sources"
        (dictInsert "sources" (Json.arr []) (dictErase "visualDescription" kvs))
      = some (Json.arr []) := by
  have hsrc := getSources_degraded resp hbad
  constructor
  · have hred := fetch_ok_reduce u g resp kvs hcall htext hjson
    rw [hsrc] at hred
    simpa [sourcesJson] using hred
  · exact dictLookup_insert_self _ _ _

theorem fetch_degraded_grounding_gives_empty_sources_witness :
    fetch_from_gemini true
        (fun _ => .ok ⟨some "\x7b\"a\":1\x7d", [⟨some ⟨some [⟨none⟩]⟩⟩]⟩)
      = .ok (dictInsert "sources" (Json.arr [])
          (dictErase "visualDescription" [("a", Json.num "1")])) ∧
    dictLookup "sources"
        (dictInsert "sources" (Json.arr [])
          (dictErase "visualDescription" [("a", Json.num "1")]))
      = some (Json.arr []) :=
  fetch_degraded_grounding_gives_empty_sources true
    (fun _ => .ok ⟨some "\x7b\"a\":1\x7d", [⟨some ⟨some [⟨none⟩]⟩⟩]⟩)
    ⟨some "\x7b\"a\":1\x7d", [⟨some ⟨some [⟨none⟩]⟩⟩]⟩
    [("a", Json.num "1")] rfl rfl rfl rfl

/-- C7 (amended): over a reply whose grounding metadata is a chunk list in
which every chunk carries a web citation object, the code's sources agree
with the spec's description (one {uri, title} entry per chunk with both
fields non-empty, in order, others excluded); but as soon as one chunk lacks
the web citation object, the exception is swallowed and the whole sources
list degrades to empty. -/
theorem getSources_matches_specSources_when_web_present (t : Option String)
    (rest : List Candidate) (chunks : List GroundingChunk) :
    ((∀ ch ∈ chunks, ch.web ≠ none) →
      getSources ⟨t, ⟨some ⟨some chunks⟩⟩ :: rest⟩ = specSources chunks) ∧
    ((∃ ch ∈ chunks, ch.web = none) →
      getSources ⟨t, ⟨some ⟨some chunks⟩⟩ :: rest⟩ = []) := by
  constructor
  · intro h
    show (collectChunks chunks).getD [] = specSources chunks
    rw [collectChunks_all_web chunks h]
    rfl
  · intro h
    show (collectChunks chunks).getD [] = []
    rw [collectChunks_none chunks h]
    rfl

/-- C7 counterexample: a chunk without a web citation next to a fully cited
chunk.  The claim as stated predicts the cited chunk's entry is kept; the
code returns the empty list (reading `chunk.web.uri` on the web-less chunk
raises, and line 105-106 swallow the exception and reset `sources`). -/
theorem getSources_missing_web_counterexample :
    getSources ⟨some "x", [⟨some ⟨some [⟨none⟩, ⟨some ⟨some "u", some "t"⟩⟩]⟩⟩]⟩
      = [] ∧
    specSources [⟨none⟩, ⟨some ⟨some "u", some "t"⟩⟩]
      = [{ uri := "u", title := "t" }] ∧
    ([] : List GroundingSource) ≠ [{ uri := "u", title := "t" }] :=
  ⟨rfl, rfl, by decide⟩

theorem getSources_matches_specSources_witness :
    getSources ⟨some "x",
        [⟨some ⟨some [⟨some ⟨some "u", some "t"⟩⟩, ⟨some ⟨some "v", none⟩⟩]⟩⟩]⟩
      = specSources [⟨some ⟨some "u", some "t"⟩⟩, ⟨some ⟨some "v", none⟩⟩] ∧
    getSources ⟨some "x", [⟨some ⟨some [⟨none⟩]⟩⟩]⟩ = [] :=
  ⟨(getSources_matches_specSources_when_web_present (some "x") [] _).1 (by decide),
   (getSources_matches_specSources_when_web_present (some "x") [] _).2
     ⟨⟨none⟩, by decide, rfl⟩⟩

/-- C8: the configuration passed to the generation call has temperature 0.5
always, and carries the web-search tool capability exactly when the
`useSearch` flag is set. -/
theorem makeConfig_temperature_and_search_tool (u : Bool) :
    (makeConfig u).temperature = (0.5 : Rat) ∧ hasSearchTool (makeConfig u) = u := by
  cases u <;> exact ⟨rfl, rfl⟩

/-- C9: when a brace span is located but fails to parse as JSON, the handler
fails with the error the design names ClientFormatError (the uncaught
`json.JSONDecodeError` of line 96, surfacing as HTTP 500). -/
theorem fetch_clientFormat_on_unparsable_span (u : Bool)
    (g : GenerateContentConfig → Except String GenResponse)
    (resp : GenResponse) (span : List Char)
    (hcall : g (makeConfig u) = .ok resp)
    (htext : pyTruthy resp.text = true)
    (hspan : extractSpan (resp.text.getD "").data = some span)
    (hparse : json_loads span = none) :
    fetch_from_gemini u g = .error .clientFormat := by
  unfold fetch_from_gemini
  rw [hcall]
  simp [htext, hspan, hparse]

theorem fetch_clientFormat_on_unparsable_span_witness :
    fetch_from_gemini true (fun _ => .ok ⟨some "\x7boops\x7d", []⟩)
      = .error .clientFormat :=
  fetch_clientFormat_on_unparsable_span true
    (fun _ => .ok ⟨some "\x7boops\x7d", []⟩) ⟨some "\x7boops\x7d", []⟩
    ("\x7boops\x7d").data rfl rfl rfl rfl

/-- C10: frame property of the post-parse rewriting.  Every key other than
"visualDescription" and "sources" is mapped to exactly the value the parsed
object gave it; "sources" is bound to the grounding-derived sequence (any
model-supplied value is replaced); "visualDescription" is absent. -/
theorem fetch_frame_preserves_other_keys (u : Bool)
    (g : GenerateContentConfig → Except String GenResponse)
    (resp : GenResponse) (kvs : List (String × Json))
    (hcall : g (makeConfig u) = .ok resp)
    (htext : pyTruthy resp.text = true)
    (hjson : extractJson (resp.text.getD "").data = some (.obj kvs)) :
    ∃ d, fetch_from_gemini u g = .ok d ∧
      (∀ k, k ≠ "visualDescription" → k ≠ "sources" →
        dictLookup k d = dictLookup k kvs) ∧
      dictLookup "sources" d = some (sourcesJson (getSources resp)) ∧
      dictLookup "visualDescription" d = none := by
  refine ⟨_, fetch_ok_reduce u g resp kvs hcall htext hjson, ?_, ?_, ?_⟩
  · intro k hk1 hk2
    rw [dictLookup_insert_ne _ _ _ hk2, dictLookup_erase_ne _ _ hk1]
  · exact dictLookup_insert_self _ _ _
  · have hne : ("visualDescription" : String) ≠ "sources" := by decide
    rw [dictLookup_insert_ne _ _ _ hne]
    exact dictLookup_erase_self _ _

theorem fetch_frame_preserves_other_keys_witness :
    ∃ d, fetch_from_gemini true
        (fun _ => .ok ⟨some "\x7b\"a\":1,\"sources\":\"model\",\"visualDescription\":\"v\"\x7d",
          [⟨some ⟨some [⟨some ⟨some "u", some "t"⟩⟩]⟩⟩]⟩)
        = .ok d ∧
      (∀ k, k ≠ "visualDescription" → k ≠ "sources" →
        dictLookup k d = dictLookup k
          [("a", Json.num "1"), ("sources", Json.str "model"),
           ("visualDescription", Json.str "v")]) ∧
      dictLookup "sources" d
        = some (sourcesJson (getSources
            ⟨some "\x7b\"a\":1,\"sources\":\"model\",\"visualDescription\":\"v\"\x7d",
             [⟨some ⟨some [⟨some ⟨some "u", some "t"⟩⟩]⟩⟩]⟩)) ∧
      dictLookup "visualDescription" d = none :=
  fetch_frame_preserves_other_keys true
    (fun _ => .ok ⟨some "\x7b\"a\":1,\"sources\":\"model\",\"visualDescription\":\"v\"\x7d",
      [⟨some ⟨some [⟨some ⟨some "u", some "t"⟩⟩]⟩⟩]⟩)
    ⟨some "\x7b\"a\":1,\"sources\":\"model\",\"visualDescription\":\"v\"\x7d",
     [⟨some ⟨some [⟨some ⟨some "u", some "t"⟩⟩]⟩⟩]⟩
    [("a", Json.num "1"), ("sources", Json.str "model"),
     ("visualDescription", Json.str "v")]
    rfl rfl rfl
